import Mathlib

/-!
Verification of the intercom bridge's registry/relay engine.

This file shallowly embeds the state and operations of the bridge:
the unified WebSocket-relay + peer-to-peer bridge (namespace `Unified`)
and the observatory variant (namespace `Obs`).  JavaScript `Map`s are
modelled as association lists, `Set`s as duplicate-free lists in
insertion order, wall-clock timestamps as naturals, and the external
digest functions (hypercore-crypto `discoveryKey`, node `sha256`) as
function parameters or concrete stand-ins, since the transports and
crypto substrate are external collaborators.
-/

set_option autoImplicit false

universe u v

/-- Lookup in an association list modelling a JavaScript `Map.get`:
returns the value of the first entry with the given key. -/
def mLookup {κ : Type u} {α : Type v} [DecidableEq κ] : List (κ × α) → κ → Option α
  | [], _ => none
  | (k, v) :: rest, key => if k = key then some v else mLookup rest key

/-- Insert-or-replace modelling `Map.set`: replaces the first entry with
the key in place, otherwise appends a fresh entry at the end. -/
def mapSet {κ : Type u} {α : Type v} [DecidableEq κ] : List (κ × α) → κ → α → List (κ × α)
  | [], key, v => [(key, v)]
  | (k, w) :: rest, key, v =>
    if k = key then (key, v) :: rest else (k, w) :: mapSet rest key v

/-- Removal modelling `Map.delete`. -/
def mapDelete {κ : Type u} {α : Type v} [DecidableEq κ] (m : List (κ × α)) (key : κ) : List (κ × α) :=
  m.filter (fun kv => kv.1 ≠ key)

/-- In-place update of the value stored under a key, modelling
`m.get(k)` followed by mutation of the retrieved object.  Absent keys
leave the map unchanged. -/
def mapUpdate {κ : Type u} {α : Type v} [DecidableEq κ] : List (κ × α) → κ → (α → α) → List (κ × α)
  | [], _, _ => []
  | (k, v) :: rest, key, g =>
    if k = key then (k, g v) :: mapUpdate rest key g else (k, v) :: mapUpdate rest key g

/-- Addition modelling `Set.add`: no-op when the element is present,
otherwise appended at the end (JavaScript sets preserve insertion order). -/
def setAdd {α : Type u} [DecidableEq α] (s : List α) (x : α) : List α :=
  if x ∈ s then s else s ++ [x]

/-- Removal modelling `Set.delete`. -/
def setDel {α : Type u} [DecidableEq α] (s : List α) (x : α) : List α :=
  s.filter (fun y => y ≠ x)

/-- Union modelling `new Set([...a, ...b])` for an already de-duplicated `a`. -/
def setUnionL {α : Type u} [DecidableEq α] (a b : List α) : List α :=
  b.foldl setAdd a

/-- Shallow object merge modelling `{...old, ...upd}`: keys of `upd` win,
keys only in `old` are kept. -/
def objMerge (old upd : List (String × String)) : List (String × String) :=
  old.filter (fun kv => (mLookup upd kv.1).isNone) ++ upd

/-- Truthiness of an optional JavaScript string: `undefined`/`null` and
the empty string are falsy. -/
def strTruthy : Option String → Option String
  | some s => if s = "" then none else some s
  | none => none

/-- The JavaScript `a || b` idiom on two optional strings. -/
def jsOr (a b : Option String) : Option String :=
  match strTruthy a with
  | some s => some s
  | none => strTruthy b

/-- The JavaScript `a || b` idiom with a mandatory fallback string. -/
def jsOrStr (a : Option String) (b : String) : String :=
  match strTruthy a with
  | some s => s
  | none => b

namespace Unified

/-- A live peer connection on the peer-to-peer transport
(`peers` map entry of the unified bridge). -/
structure Peer where
  publicKey : String
  connectedAt : Nat
  lastSeen : Nat
  isClient : Bool
  isServer : Bool
  connDestroyed : Bool
deriving Repr, DecidableEq

/-- A joined topic (`topics` map entry). -/
structure Topic where
  name : String
  key : String
  peersSet : List String
  joinedAt : Nat
  server : Bool
  client : Bool
  messageCount : Nat
  lastActivity : Nat
deriving Repr, DecidableEq

/-- An agent-registry record (`agents` map entry). -/
structure Agent where
  id : String
  name : String
  type : String
  capabilities : List String
  publicKey : String
  topics : List String
  firstSeen : Nat
  lastSeen : Nat
  metadata : List (String × String)
deriving Repr, DecidableEq

/-- The argument object of `registerAgent`; absent fields are `none`. -/
structure AgentData where
  id : Option String := none
  name : Option String := none
  type : Option String := none
  capabilities : Option (List String) := none
  publicKey : Option String := none
  topics : Option (List String) := none
  metadata : Option (List (String × String)) := none
deriving Repr, DecidableEq

/-- Register-or-merge an agent record, mirroring `registerAgent` of the
unified bridge: the key is `id || publicKey`; an existing record gets
`lastSeen` bumped, truthy scalar fields overwritten, topic sets unioned
and metadata shallow-merged; a fresh record is filled with defaults.
Returns the updated map together with the touched key and whether the
record was newly created (`none` when registration was refused). -/
def registerAgent (agents : List (String × Agent)) (d : AgentData) (now : Nat) :
    List (String × Agent) × Option (String × Bool) :=
  match jsOr d.id d.publicKey with
  | none => (agents, none)
  | some agentId =>
    match mLookup agents agentId with
    | some existing =>
      let e0 := { existing with lastSeen := now }
      let e1 := match strTruthy d.name with
                | some n => { e0 with name := n }
                | none => e0
      let e2 := match strTruthy d.type with
                | some t => { e1 with type := t }
                | none => e1
      let e3 := match d.capabilities with
                | some cs => { e2 with capabilities := cs }
                | none => e2
      let e4 := match d.topics with
                | some ts => { e3 with topics := setUnionL existing.topics ts }
                | none => e3
      let e5 := match d.metadata with
                | some md => { e4 with metadata := objMerge existing.metadata md }
                | none => e4
      (mapSet agents agentId e5, some (agentId, false))
    | none =>
      (mapSet agents agentId
        { id := agentId
          name := (strTruthy d.name).getD "Unknown Agent"
          type := (strTruthy d.type).getD "unknown"
          capabilities := d.capabilities.getD []
          publicKey := (strTruthy d.publicKey).getD agentId
          topics := (d.topics.getD []).foldl setAdd []
          firstSeen := now
          lastSeen := now
          metadata := d.metadata.getD [] }, some (agentId, true))

/-- One archived record; the identifying fields of the archived JSON
objects (kind, channel, sender) are retained. -/
inductive Rec where
  | hyperswarmRec (channel : Option String) (src : String)
  | relayRec (channel : Option String) (sender : String)
  | peerRec (src : String)
deriving Repr, DecidableEq

/-- The archive capacity `MAX_MESSAGES` of the unified bridge. -/
def MAX_MESSAGES : Nat := 1000

/-- One `archiveMessage` step on the bounded message list, with the
capacity as an explicit parameter: push to the back, and when the
length exceeds the capacity, `shift()` exactly one record off the front. -/
def archiveStep {μ : Type u} (cap : Nat) (msgs : List μ) (m : μ) : List μ :=
  let l := msgs ++ [m]
  if l.length > cap then l.drop 1 else l

/-- UTF-8 encoding of one character, as `Buffer.write` performs it. -/
def utf8EncodeChar (c : Char) : List Nat :=
  let n := c.toNat
  if n < 0x80 then [n]
  else if n < 0x800 then
    [0xC0 ||| (n >>> 6), 0x80 ||| (n &&& 0x3F)]
  else if n < 0x10000 then
    [0xE0 ||| (n >>> 12), 0x80 ||| ((n >>> 6) &&& 0x3F), 0x80 ||| (n &&& 0x3F)]
  else
    [0xF0 ||| (n >>> 18), 0x80 ||| ((n >>> 12) &&& 0x3F),
     0x80 ||| ((n >>> 6) &&& 0x3F), 0x80 ||| (n &&& 0x3F)]

/-- Byte sequence produced by `buffer.write(name)` on a buffer with the
given free room: characters are encoded in UTF-8 one by one and writing
stops at the first character that no longer fits. -/
def writeBytes : List Char → Nat → List Nat
  | [], _ => []
  | c :: cs, room =>
    let eb := utf8EncodeChar c
    if eb.length ≤ room then eb ++ writeBytes cs (room - eb.length) else []

/-- The 32-byte buffer built by `Buffer.alloc(32)` followed by
`topicBuffer.write(name)`: the name's UTF-8 bytes truncated to 32,
zero-padded at the end. -/
def buf32 (name : String) : List Nat :=
  let bs := writeBytes name.data 32
  bs ++ List.replicate (32 - bs.length) 0

/-- Channel-key derivation `getTopicKey` of the unified bridge,
parameterized by the external digest `H` (hypercore-crypto
`discoveryKey` composed with hex rendering): the digest is applied to
the name truncated/zero-padded to 32 bytes. -/
def getTopicKeyWith (H : List Nat → String) (name : String) : String :=
  H (buf32 name)

/-- Concrete stand-in for the external discovery-key digest, used to
instantiate the state machine; the claims about key derivation itself
are stated for an arbitrary digest. -/
def digestModel (bs : List Nat) : String :=
  String.intercalate "." (bs.map toString)

/-- The channel-key derivation with the stand-in digest. -/
def getTopicKey (name : String) : String :=
  getTopicKeyWith digestModel name

/-- The static allow-list `PUBLIC_CHANNELS` of channel names eligible
for cross-protocol relay. -/
def PUBLIC_CHANNELS : List String :=
  ["0000intercom", "agent-marketplace", "agent-announce",
   "intercom-global", "agent-network", "sc-bridge-discovery"]

/-- The `PUBLIC_CHANNELS.has(channel)` test on a possibly absent
channel field. -/
def isPublic : Option String → Bool
  | some c => c ∈ PUBLIC_CHANNELS
  | none => false

/-- Per-session relay-client bookkeeping (`relayClients` map values).
Channel names are kept as optional strings because the handler inserts
the message's `channel` field verbatim, present or not. -/
structure ClientInfo where
  id : String
  authenticated : Bool
  channels : List (Option String)
  agentId : Option String
deriving Repr, DecidableEq

/-- The relay-client record created on accept: authenticated exactly
when no shared token is configured. -/
def initRelayClientInfo (cfg : Option String) (id : String) : ClientInfo :=
  { id := id, authenticated := cfg.isNone, channels := [], agentId := none }

/-- Hour bucket of the activity tracker. -/
structure HourStat where
  messages : Nat
  agentsSeen : List String
deriving Repr, DecidableEq

/-- The mutable state of the unified bridge: peers, topics, agents,
the bounded message archive, observatory clients, relay clients with
their per-channel membership table, and the monotone counters.
Relay clients are identified by numeric connection handles. -/
structure State where
  peers : List (String × Peer)
  topics : List (String × Topic)
  agents : List (String × Agent)
  messages : List Rec
  clients : List Nat
  relayClients : List (Nat × ClientInfo)
  relayChannels : List (Option String × List Nat)
  totalMessages : Nat
  totalAgents : Nat
  totalTopics : Nat
  hourlyStats : List (Nat × HourStat)
deriving Repr, DecidableEq

/-- Outbound event envelopes; event ids and wall-clock timestamps of
the JSON envelopes are presentation metadata and are omitted. -/
inductive Env where
  | error (e : String)
  | joined (channel : Option String)
  | leftChannel (channel : Option String)
  | sidechannel (channel : Option String) (src : String)
  | topicJoined (name : String) (key : String)
  | topicLeft (name : String) (key : String)
  | channelJoined (channel : String)
  | agentDiscovered (id : String)
  | rawMsg (src : String)
  | hyperswarmMsg (channel : Option String) (src : String)
  | agentJoin (id : String)
  | agentLeave (id : String)
deriving Repr, DecidableEq

/-- One observable side effect of a handler. -/
inductive Out where
  | wsSend (target : Nat) (env : Env)
  | peerWrite (target : String) (env : Env)
  | swarmJoin (name : String)
  | swarmLeave (name : String)
deriving Repr, DecidableEq

/-- Broadcast to every observatory WebSocket client
(`broadcastToWebSocketClients`; all modelled sessions are open). -/
def broadcastToWebSocketClients (st : State) (env : Env) : List Out :=
  st.clients.map (fun c => Out.wsSend c env)

/-- Broadcast to relay clients (`broadcastToRelayClients`), optionally
restricted to the clients joined to a channel name. -/
def broadcastToRelayClients (st : State) (env : Env) (channelFilter : Option String) : List Out :=
  (st.relayClients.filter (fun rc =>
      match channelFilter with
      | some ch => some ch ∈ rc.2.channels
      | none => true)).map (fun rc => Out.wsSend rc.1 env)

/-- State-level `archiveMessage`: bounded push, `totalMessages`
increment, and the lazily created hour bucket's counter bump. -/
def archiveMessageS (st : State) (now : Nat) (r : Rec) : State :=
  let hour := now / 3600000
  let hs := match mLookup st.hourlyStats hour with
            | none => mapSet st.hourlyStats hour { messages := 1, agentsSeen := [] }
            | some h => mapSet st.hourlyStats hour { h with messages := h.messages + 1 }
  { st with messages := archiveStep MAX_MESSAGES st.messages r
            totalMessages := st.totalMessages + 1
            hourlyStats := hs }

/-- State-level `registerAgent`: on a newly created record the
`totalAgents` counter is bumped and an `agent-discovered` envelope is
broadcast to the observatory clients. -/
def registerAgentS (st : State) (d : AgentData) (now : Nat) : State × List Out :=
  match registerAgent st.agents d now with
  | (ag, some (aid, true)) =>
    ({ st with agents := ag, totalAgents := st.totalAgents + 1 },
     broadcastToWebSocketClients { st with agents := ag } (.agentDiscovered aid))
  | (ag, _) => ({ st with agents := ag }, [])

/-- The `joinTopic` helper: derives the key; when the topic is already
joined, returns the existing key with no state change and no effects;
otherwise requests the swarm subscription, records the `Topic` entry,
broadcasts `topic-joined` and `channel_joined`, and bumps
`totalTopics`. -/
def joinTopicS (st : State) (name : String) (serverF clientF : Bool) (now : Nat) :
    String × State × List Out :=
  let topicKey := getTopicKey name
  if (mLookup st.topics topicKey).isSome then
    (topicKey, st, [])
  else
    let st1 := { st with
      topics := mapSet st.topics topicKey
        { name := name, key := topicKey, peersSet := [], joinedAt := now,
          server := serverF, client := clientF, messageCount := 0, lastActivity := now }
      totalTopics := st.totalTopics + 1 }
    (topicKey, st1,
      Out.swarmJoin name ::
        broadcastToWebSocketClients st (.topicJoined name topicKey) ++
        st.relayClients.map (fun rc => Out.wsSend rc.1 (.channelJoined name)))

/-- The `leaveTopic` helper: `false` and no change when not joined;
otherwise destroys the discovery, deletes the entry and broadcasts
`topic-left`. -/
def leaveTopicS (st : State) (name : String) : Bool × State × List Out :=
  let topicKey := getTopicKey name
  match mLookup st.topics topicKey with
  | none => (false, st, [])
  | some _ =>
    (true, { st with topics := mapDelete st.topics topicKey },
      Out.swarmLeave name :: broadcastToWebSocketClients st (.topicLeft name topicKey))

/-- Cross-protocol relay towards the swarm (`relayToHyperswarm`):
a non-allow-listed channel is dropped silently (log only, no state
change, no effect); an allow-listed one is written to every currently
connected, non-destroyed peer and archived. -/
def relayToHyperswarm (st : State) (channel : Option String) (fromAgentId : Option String) (now : Nat) :
    State × List Out :=
  if isPublic channel then
    let src := jsOrStr fromAgentId "relay"
    ( archiveMessageS st now (.hyperswarmRec channel src)
    , (st.peers.filter (fun kv => !kv.2.connDestroyed)).map
        (fun kv => Out.peerWrite kv.1 (.hyperswarmMsg channel src)) )
  else
    (st, [])

/-- Cross-protocol relay towards the relay clients
(`relayToWebSocketRelay`): a non-allow-listed topic is dropped
silently; an allow-listed one becomes a `sidechannel_message` envelope
delivered to every relay client joined to that topic name. -/
def relayToWebSocketRelay (st : State) (topicName : String) (fromPublicKey : String) : List Out :=
  if topicName ∈ PUBLIC_CHANNELS then
    broadcastToRelayClients st (.sidechannel (some topicName) fromPublicKey) (some topicName)
  else
    []

/-- Body of a relay-protocol `message` field, with the fields the
handler inspects. -/
structure MsgBody where
  type : Option String := none
  agentId : Option String := none
  name : Option String := none
  capabilities : Option (List String) := none
deriving Repr, DecidableEq

/-- Rendering of a message body as a metadata field map, modelling the
JavaScript object being stored verbatim as `metadata`. -/
def msgBodyPairs (m : MsgBody) : List (String × String) :=
  (match m.type with | some t => [("type", t)] | none => []) ++
  (match m.agentId with | some a => [("agentId", a)] | none => []) ++
  (match m.name with | some n => [("name", n)] | none => [])

/-- A parsed relay-protocol command. -/
structure RelayMsg where
  action : Option String := none
  channel : Option String := none
  message : Option MsgBody := none
  agentId : Option String := none
  token : Option String := none
deriving Repr, DecidableEq

/-- The discovery-payload branch of the `send` handler: a message body
of type `discovery` is registered in the agent registry. -/
def discoveryRegister (st : State) (mm : Option MsgBody) (now : Nat) : State × List Out :=
  match mm with
  | some m =>
    if m.type = some "discovery" then
      registerAgentS st
        { id := m.agentId, name := m.name, type := some "relay-agent",
          capabilities := m.capabilities, metadata := some (msgBodyPairs m) } now
    else (st, [])
  | none => (st, [])

/-- The shared `send`/`publish` body: a session not joined to the
channel gets an error envelope; otherwise discovery payloads are
registered, the message is fanned out to the other relay clients on
the channel, relayed to the swarm when allow-listed, and archived. -/
def relaySend (st : State) (sender : Nat) (ci : ClientInfo) (msg : RelayMsg) (now : Nat) :
    State × ClientInfo × List Out :=
  if msg.channel ∈ ci.channels then
    let p1 := discoveryRegister st msg.message now
    let srcName := jsOrStr ci.agentId ci.id
    let recipients := (mLookup p1.1.relayChannels msg.channel).getD []
    let fanout := (recipients.filter (fun c => c ≠ sender)).map
      (fun c => Out.wsSend c (.sidechannel msg.channel srcName))
    let p2 := relayToHyperswarm p1.1 msg.channel ci.agentId now
    let st3 := archiveMessageS p2.1 now (.relayRec msg.channel srcName)
    (st3, ci, p1.2 ++ fanout ++ p2.2)
  else
    (st, ci, [Out.wsSend sender (.error "Not joined to channel")])

/-- The relay-protocol action dispatch (`switch (action)` in
`handleRelayMessage`, after the authentication gate). -/
def handleRelayAction (st : State) (sender : Nat) (ci : ClientInfo) (msg : RelayMsg) (now : Nat) :
    State × ClientInfo × List Out :=
  if msg.action = some "join" then
    let ci1 := { ci with channels := setAdd ci.channels msg.channel }
    let ci2 := match strTruthy msg.agentId with
               | some a => { ci1 with agentId := some a }
               | none => ci1
    let rc0 := match mLookup st.relayChannels msg.channel with
               | none => mapSet st.relayChannels msg.channel []
               | some _ => st.relayChannels
    let st1 := { st with relayChannels := mapUpdate rc0 msg.channel (fun s => setAdd s sender) }
    let p := if isPublic msg.channel
             then (joinTopicS st1 (msg.channel.getD "") true true now).2
             else (st1, [])
    (p.1, ci2, p.2 ++ [Out.wsSend sender (.joined msg.channel)])
  else if msg.action = some "leave" then
    let ci1 := { ci with channels := setDel ci.channels msg.channel }
    let st1 := match mLookup st.relayChannels msg.channel with
      | none => st
      | some s =>
        let s1 := setDel s sender
        if s1.length = 0 then
          { st with relayChannels := mapDelete st.relayChannels msg.channel }
        else
          { st with relayChannels := mapSet st.relayChannels msg.channel s1 }
    (st1, ci1, [Out.wsSend sender (.leftChannel msg.channel)])
  else if msg.action = some "send" ∨ msg.action = some "publish" then
    relaySend st sender ci msg now
  else
    (st, ci, [Out.wsSend sender (.error "Unknown action")])

/-- The relay-protocol message handler (`handleRelayMessage`),
including the authentication gate: with a configured token and an
unauthenticated session, a message carrying the valid token flips the
session to authenticated and proceeds; any other message is answered
with an `Authentication required` error envelope and performs nothing.
A session that is still unauthenticated afterwards (possible only
without a configured token) is answered `Not authenticated`. -/
def handleRelayMessage (cfg : Option String) (st : State) (sender : Nat) (ci : ClientInfo)
    (msg : RelayMsg) (now : Nat) : State × ClientInfo × List Out :=
  match cfg, ci.authenticated with
  | some tok, false =>
    if msg.token = some tok then
      handleRelayAction st sender { ci with authenticated := true } msg now
    else
      (st, ci, [Out.wsSend sender (.error "Authentication required")])
  | _, _ =>
    if ci.authenticated then
      handleRelayAction st sender ci msg now
    else
      (st, ci, [Out.wsSend sender (.error "Not authenticated")])

/-- Payload of an `agent-announce` message from a peer. -/
structure AnnouncePayload where
  agentId : Option String := none
  name : Option String := none
  type : Option String := none
  capabilities : Option (List String) := none
deriving Repr, DecidableEq

/-- Rendering of an announce payload as a metadata field map. -/
def announcePairs (p : AnnouncePayload) : List (String × String) :=
  (match p.agentId with | some a => [("agentId", a)] | none => []) ++
  (match p.name with | some n => [("name", n)] | none => []) ++
  (match p.type with | some t => [("type", t)] | none => [])

/-- A parsed message arriving from a swarm peer.  The `channel` field
is whatever channel the payload claims; the handler never reads it. -/
structure PeerMsg where
  type : Option String := none
  payload : Option AnnouncePayload := none
  channel : Option String := none
deriving Repr, DecidableEq

/-- The announce branch of the swarm `data` handler: an
`agent-announce` message with a payload merges it into the registry. -/
def announceRegister (st : State) (peerId : String) (msg : PeerMsg) (now : Nat) :
    State × List Out :=
  match msg.type, msg.payload with
  | some "agent-announce", some pl =>
    registerAgentS st
      { id := some (jsOrStr pl.agentId peerId), name := pl.name, type := pl.type,
        capabilities := pl.capabilities, publicKey := some peerId,
        metadata := some (announcePairs pl) } now
  | _, _ => (st, [])

/-- The swarm `data` handler of the unified bridge: bump the peer's
`lastSeen`, register announce payloads, archive the message, broadcast
it to the observatory clients, and relay it to the relay clients under
the hard-coded channel name `0000intercom` (the originating topic is
unknown to the handler, so all inbound traffic is relayed). -/
def onPeerData (st : State) (peerId : String) (msg : PeerMsg) (now : Nat) : State × List Out :=
  let st1 := { st with peers := mapUpdate st.peers peerId (fun p => { p with lastSeen := now }) }
  let p1 := announceRegister st1 peerId msg now
  let st2 := archiveMessageS p1.1 now (.peerRec peerId)
  (st2, p1.2 ++ broadcastToWebSocketClients st2 (.rawMsg peerId)
          ++ relayToWebSocketRelay st2 "0000intercom" peerId)

end Unified

namespace Obs

/-- Channel-key derivation of the observatory bridge: the name is first
digested in full by sha256 (`S`), then by the discovery-key digest
(`H`); both external digests are parameters. -/
def getTopicKeyObs (S : String → List Nat) (H : List Nat → String) (name : String) : String :=
  H (S name)

/-- A JavaScript number restricted to the values the activity endpoint
can produce: a finite (rational) value, `NaN`, or `Infinity`.  The
operands at hand (`messagesReceived`, `uptime`) are non-negative, so
`-Infinity` does not arise. -/
inductive JsNum where
  | finite (q : ℚ)
  | nan
  | inf
deriving Repr, DecidableEq

/-- JavaScript floating-point division on such values: a nonzero value
divided by `0` is `Infinity`, and `0 / 0` is `NaN`. -/
def jsDiv : JsNum → JsNum → JsNum
  | .finite a, .finite b =>
    if b = 0 then (if a = 0 then .nan else .inf) else .finite (a / b)
  | .nan, _ => .nan
  | _, .nan => .nan
  | .inf, .inf => .nan
  | .inf, .finite _ => .inf
  | .finite _, .inf => .finite 0

/-- The `/activity` rate computation of the observatory bridge:
`messagesReceived / (uptime / 1000)` with `uptime` in milliseconds,
evaluated with JavaScript division semantics. -/
def messagesPerSecond (messagesReceived : Nat) (uptimeMs : Nat) : JsNum :=
  jsDiv (.finite messagesReceived) (jsDiv (.finite uptimeMs) (.finite 1000))

/-- A tracked peer of the observatory bridge. -/
structure Peer where
  publicKey : String
  connectedAt : Nat
  lastSeen : Nat
  topics : List String
deriving Repr, DecidableEq

/-- A joined topic of the observatory bridge. -/
structure Topic where
  name : String
  key : String
  peersSet : List String
  joinedAt : Nat
  messageCount : Nat
  lastActivity : Nat
deriving Repr, DecidableEq

/-- The slice of the observatory state touched by the disconnect
handler: live peers, topics with their member sets, the agent
registry, and the observatory clients. -/
structure State where
  peers : List (String × Peer)
  topics : List (String × Topic)
  agents : List (String × Unified.Agent)
  clients : List Nat
deriving Repr, DecidableEq

/-- The swarm `close` handler of the observatory bridge: the peer's
memberships are removed from every topic it was tracked in, the
corresponding agent record is kept with only its `lastSeen` bumped,
the peer entry is deleted, and `agent-leave` is broadcast. -/
def onPeerClose (st : State) (peerId : String) (now : Nat) : State × List Unified.Out :=
  let topics1 := match mLookup st.peers peerId with
    | some p => p.topics.foldl
        (fun ts tk => mapUpdate ts tk (fun t => { t with peersSet := setDel t.peersSet peerId }))
        st.topics
    | none => st.topics
  let agents1 := match mLookup st.agents peerId with
    | some a => mapSet st.agents peerId { a with lastSeen := now }
    | none => st.agents
  ( { st with topics := topics1, agents := agents1, peers := mapDelete st.peers peerId }
  , st.clients.map (fun c => Unified.Out.wsSend c (.agentLeave peerId)) )

end Obs

section MapLemmas

variable {κ : Type u} {α : Type v} [DecidableEq κ]

@[simp] theorem mLookup_nil {key : κ} : mLookup ([] : List (κ × α)) key = none := rfl

theorem mLookup_cons {k key : κ} {v : α} {rest : List (κ × α)} :
    mLookup ((k, v) :: rest) key = if k = key then some v else mLookup rest key := rfl

@[simp] theorem mLookup_mapSet_self (m : List (κ × α)) (key : κ) (v : α) :
    mLookup (mapSet m key v) key = some v := by
  induction m with
  | nil => simp [mapSet, mLookup]
  | cons kv rest ih =>
    obtain ⟨k, w⟩ := kv
    by_cases h : k = key <;> simp [mapSet, mLookup, h, ih]

theorem mLookup_mapSet_ne (m : List (κ × α)) (key key' : κ) (v : α) (h : key' ≠ key) :
    mLookup (mapSet m key v) key' = mLookup m key' := by
  induction m with
  | nil => simp [mapSet, mLookup, Ne.symm h]
  | cons kv rest ih =>
    obtain ⟨k, w⟩ := kv
    by_cases hk : k = key
    · subst hk; simp [mapSet, mLookup, Ne.symm h]
    · by_cases hk' : k = key' <;> simp [mapSet, mLookup, hk, hk', h, ih]

theorem mapSet_eq_self {m : List (κ × α)} {key : κ} {v : α} (h : mLookup m key = some v) :
    mapSet m key v = m := by
  induction m with
  | nil => simp [mLookup] at h
  | cons kv rest ih =>
    obtain ⟨k, w⟩ := kv
    by_cases hk : k = key
    · subst hk
      simp [mLookup] at h
      simp [mapSet, h]
    · simp [mLookup, hk] at h
      simp [mapSet, hk, ih h]

@[simp] theorem mLookup_mapUpdate_self (m : List (κ × α)) (key : κ) (g : α → α) :
    mLookup (mapUpdate m key g) key = (mLookup m key).map g := by
  induction m with
  | nil => simp [mapUpdate]
  | cons kv rest ih =>
    obtain ⟨k, w⟩ := kv
    by_cases h : k = key
    · subst h; simp [mapUpdate, mLookup]
    · simp [mapUpdate, mLookup, h, ih]

theorem mLookup_mapUpdate_ne (m : List (κ × α)) (key key' : κ) (g : α → α) (h : key' ≠ key) :
    mLookup (mapUpdate m key g) key' = mLookup m key' := by
  induction m with
  | nil => simp [mapUpdate]
  | cons kv rest ih =>
    obtain ⟨k, w⟩ := kv
    by_cases hk : k = key
    · subst hk; simp [mapUpdate, mLookup, Ne.symm h, ih]
    · by_cases hk' : k = key' <;> simp [mapUpdate, mLookup, hk, hk', h, ih]

@[simp] theorem mLookup_mapDelete_self (m : List (κ × α)) (key : κ) :
    mLookup (mapDelete m key) key = none := by
  induction m with
  | nil => simp [mapDelete]
  | cons kv rest ih =>
    obtain ⟨k, w⟩ := kv
    by_cases h : k = key <;> simp [mapDelete, mLookup, h] at ih ⊢ <;> simp [mLookup, h, ih]

/-- Number of entries stored under a key. -/
def countKey (m : List (κ × α)) (key : κ) : Nat :=
  m.countP (fun kv => kv.1 = key)

theorem countKey_eq_zero_of_lookup_none {m : List (κ × α)} {key : κ}
    (h : mLookup m key = none) : countKey m key = 0 := by
  induction m with
  | nil => simp [countKey]
  | cons kv rest ih =>
    obtain ⟨k, w⟩ := kv
    by_cases hk : k = key
    · simp [mLookup, hk] at h
    · simp [mLookup, hk] at h
      simpa [countKey, List.countP_cons, hk] using ih h

theorem countKey_mapSet_of_lookup_none {m : List (κ × α)} {key : κ} (v : α)
    (h : mLookup m key = none) : countKey (mapSet m key v) key = 1 := by
  induction m with
  | nil => simp [mapSet, countKey, List.countP_cons]
  | cons kv rest ih =>
    obtain ⟨k, w⟩ := kv
    by_cases hk : k = key
    · simp [mLookup, hk] at h
    · simp [mLookup, hk] at h
      simpa [mapSet, hk, countKey, List.countP_cons] using ih h

theorem countKey_mapSet_of_lookup_some {m : List (κ × α)} {key : κ} {w : α} (v : α)
    (h : mLookup m key = some w) : countKey (mapSet m key v) key = countKey m key := by
  induction m with
  | nil => simp [mLookup] at h
  | cons kv rest ih =>
    obtain ⟨k, u⟩ := kv
    by_cases hk : k = key
    · simp [mapSet, hk, countKey, List.countP_cons]
    · simp [mLookup, hk] at h
      simpa [mapSet, hk, countKey, List.countP_cons] using ih h

theorem mLookup_foldl_update_not_mem (keys : List κ) (m : List (κ × α)) (g : α → α) (key : κ)
    (h : key ∉ keys) :
    mLookup (keys.foldl (fun ts k => mapUpdate ts k g) m) key = mLookup m key := by
  induction keys generalizing m with
  | nil => rfl
  | cons k ks ih =>
    simp only [List.mem_cons, not_or] at h
    rw [List.foldl_cons, ih _ h.2, mLookup_mapUpdate_ne _ _ _ _ h.1]

theorem foldl_update_prop (P : α → Prop) (keys : List κ) (m : List (κ × α)) (g : α → α) (key : κ)
    (hg : ∀ t, P (g t)) (hmem : key ∈ keys) :
    ∀ t, mLookup (keys.foldl (fun ts k => mapUpdate ts k g) m) key = some t → P t := by
  induction keys generalizing m with
  | nil => simp at hmem
  | cons k ks ih =>
    intro t ht
    by_cases hks : key ∈ ks
    · exact ih (mapUpdate m k g) hks t ht
    · have hk : key = k := by
        rcases List.mem_cons.mp hmem with h | h
        · exact h
        · exact absurd h hks
      subst hk
      rw [List.foldl_cons, mLookup_foldl_update_not_mem ks _ g key hks,
        mLookup_mapUpdate_self] at ht
      rcases Option.map_eq_some'.mp ht with ⟨u, _, rfl⟩
      exact hg u

end MapLemmas

section SetLemmas

variable {α : Type u} [DecidableEq α]

theorem setDel_eq_self {s : List α} {x : α} (h : x ∉ s) : setDel s x = s := by
  unfold setDel
  apply List.filter_eq_self.mpr
  intro y hy
  simp only [ne_eq, decide_eq_true_eq]
  exact fun e => h (e ▸ hy)

@[simp] theorem not_mem_setDel (s : List α) (x : α) : x ∉ setDel s x := by
  unfold setDel
  intro h
  have := List.of_mem_filter h
  simp at this

end SetLemmas

section LastN

variable {α : Type u}

/-- The suffix of the most recent `n` elements of a list. -/
def lastN (n : Nat) (l : List α) : List α := l.drop (l.length - n)

theorem lastN_of_le {n : Nat} {l : List α} (h : l.length ≤ n) : lastN n l = l := by
  unfold lastN
  have : l.length - n = 0 := by omega
  simp [this]

@[simp] theorem lastN_length (n : Nat) (l : List α) : (lastN n l).length = min n l.length := by
  unfold lastN
  simp [List.length_drop]
  omega

theorem lastN_append_left (cap : Nat) (l ms : List α) (h : l.length ≤ cap + 1) :
    lastN cap (lastN cap l ++ ms) = lastN cap (l ++ ms) := by
  by_cases hl : l.length ≤ cap
  · rw [lastN_of_le hl]
  · have hk : l.length - cap = 1 := by omega
    have h1 : lastN cap l = l.drop 1 := by unfold lastN; rw [hk]
    have h2 : l.drop 1 ++ ms = (l ++ ms).drop 1 :=
      (List.drop_append_of_le_length (by omega)).symm
    rw [h1, h2]
    unfold lastN
    rw [List.drop_drop]
    congr 1
    simp [List.length_drop, List.length_append]
    omega

end LastN

namespace Unified

theorem archiveStep_lastN {α : Type u} (cap : Nat) (init : List α) (m : α)
    (h : init.length ≤ cap) : archiveStep cap init m = lastN cap (init ++ [m]) := by
  unfold archiveStep lastN
  by_cases hc : (init ++ [m]).length > cap
  · rw [if_pos hc]
    congr 1
    simp only [List.length_append, List.length_cons, List.length_nil] at hc ⊢
    omega
  · rw [if_neg hc]
    have h0 : (init ++ [m]).length - cap = 0 := by omega
    rw [h0, List.drop_zero]

/-- Helper: `registerAgent` on a fresh identity appends the default-filled
record. -/
theorem registerAgent_fresh (agents : List (String × Agent)) (d : AgentData) (now : Nat)
    (idv : String) (hid : jsOr d.id d.publicKey = some idv)
    (hfresh : mLookup agents idv = none) :
    registerAgent agents d now =
      (mapSet agents idv
        { id := idv
          name := (strTruthy d.name).getD "Unknown Agent"
          type := (strTruthy d.type).getD "unknown"
          capabilities := d.capabilities.getD []
          publicKey := (strTruthy d.publicKey).getD idv
          topics := (d.topics.getD []).foldl setAdd []
          firstSeen := now
          lastSeen := now
          metadata := d.metadata.getD [] }, some (idv, true)) := by
  unfold registerAgent
  simp only [hid, hfresh]

/-- Helper: `registerAgent` on an existing identity replaces its record
in place by one with `lastSeen := now`, and with the supplied
capability list overriding the stored one (last write wins). -/
theorem registerAgent_update (agents : List (String × Agent)) (d : AgentData) (now : Nat)
    (idv : String) (existing : Agent) (hid : jsOr d.id d.publicKey = some idv)
    (hex : mLookup agents idv = some existing) :
    ∃ e : Agent,
      registerAgent agents d now = (mapSet agents idv e, some (idv, false)) ∧
      e.lastSeen = now ∧
      e.capabilities = d.capabilities.getD existing.capabilities := by
  unfold registerAgent
  simp only [hid, hex]
  cases hmd : d.metadata <;> cases htp : d.topics <;> cases hcap : d.capabilities <;>
    cases hty : strTruthy d.type <;> cases hnm : strTruthy d.name <;>
      exact ⟨_, rfl, rfl, by simp⟩

end Unified

/-- Claim C1 (counterexample): registering identity `"a"` first with
capability set `["x"]` and then with `["y"]` leaves capabilities
`["y"]`; the union required by the claim would contain `"x"`, which is
absent, so the capability set is not the union of the two sets. -/
theorem registerAgent_union_cex :
    ((mLookup (Unified.registerAgent
        (Unified.registerAgent [] ⟨some "a", none, none, some ["x"], none, none, none⟩ 10).1
        ⟨some "a", none, none, some ["y"], none, none, none⟩ 20).1 "a").map
      Unified.Agent.capabilities) = some ["y"] ∧
    "x" ∈ (["x"] : List String) ∧ "x" ∉ (["y"] : List String) := by
  decide

/-- Claim C1 (amended): registering the same fresh agent identity twice
with capability sets supplied both times yields exactly one record for
that identity; its capability set is the most recently supplied one
(last write wins, not the union), and its `lastSeen` strictly
increases when the clock advanced between the registrations. -/
theorem registerAgent_twice_lastWrite (agents : List (String × Unified.Agent))
    (d1 d2 : Unified.AgentData) (idv : String) (c1 c2 : List String) (t1 t2 : Nat)
    (hfresh : mLookup agents idv = none)
    (hid1 : jsOr d1.id d1.publicKey = some idv)
    (hid2 : jsOr d2.id d2.publicKey = some idv)
    (hc1 : d1.capabilities = some c1)
    (hc2 : d2.capabilities = some c2)
    (ht : t1 < t2) :
    countKey (Unified.registerAgent (Unified.registerAgent agents d1 t1).1 d2 t2).1 idv = 1 ∧
    ∃ r1 r2 : Unified.Agent,
      mLookup (Unified.registerAgent agents d1 t1).1 idv = some r1 ∧
      mLookup (Unified.registerAgent (Unified.registerAgent agents d1 t1).1 d2 t2).1 idv = some r2 ∧
      r1.capabilities = c1 ∧ r2.capabilities = c2 ∧
      r1.lastSeen = t1 ∧ r2.lastSeen = t2 ∧ r1.lastSeen < r2.lastSeen := by
  have h1 := Unified.registerAgent_fresh agents d1 t1 idv hid1 hfresh
  have hl1 : mLookup (Unified.registerAgent agents d1 t1).1 idv =
      some { id := idv, name := (strTruthy d1.name).getD "Unknown Agent",
             type := (strTruthy d1.type).getD "unknown",
             capabilities := d1.capabilities.getD [],
             publicKey := (strTruthy d1.publicKey).getD idv,
             topics := (d1.topics.getD []).foldl setAdd [],
             firstSeen := t1, lastSeen := t1, metadata := d1.metadata.getD [] } := by
    simp only [h1]
    exact mLookup_mapSet_self _ _ _
  obtain ⟨e, he, helast, hecaps⟩ :=
    Unified.registerAgent_update _ d2 t2 idv _ hid2 hl1
  constructor
  · simp only [he]
    rw [countKey_mapSet_of_lookup_some e hl1]
    simp only [h1]
    exact countKey_mapSet_of_lookup_none _ hfresh
  · refine ⟨_, e, hl1, ?_, ?_, ?_, rfl, helast, ?_⟩
    · simp only [he]
      exact mLookup_mapSet_self _ _ _
    · simp [hc1]
    · rw [hecaps, hc2]
      rfl
    · rw [helast]
      exact ht

/-- Claim C1 (witness): a concrete double registration exercising the
amended statement. -/
theorem registerAgent_twice_lastWrite_witness :
    countKey (Unified.registerAgent (Unified.registerAgent []
      ⟨some "a", none, none, some ["x"], none, none, none⟩ 10).1
      ⟨some "a", none, none, some ["y"], none, none, none⟩ 20).1 "a" = 1 ∧
    ∃ r1 r2 : Unified.Agent,
      mLookup (Unified.registerAgent []
        ⟨some "a", none, none, some ["x"], none, none, none⟩ 10).1 "a" = some r1 ∧
      mLookup (Unified.registerAgent (Unified.registerAgent []
        ⟨some "a", none, none, some ["x"], none, none, none⟩ 10).1
        ⟨some "a", none, none, some ["y"], none, none, none⟩ 20).1 "a" = some r2 ∧
      r1.capabilities = ["x"] ∧ r2.capabilities = ["y"] ∧
      r1.lastSeen = 10 ∧ r2.lastSeen = 20 ∧ r1.lastSeen < r2.lastSeen :=
  registerAgent_twice_lastWrite [] _ _ "a" ["x"] ["y"] 10 20 rfl rfl rfl rfl rfl
    (by decide)

/-- First collision witness name: thirty-two `a` characters. -/
def nameTrunc32 : String := "aaaaaaaaaaaaaaaaaaaaaaaaaaaaaaaa"

/-- Second collision witness name: the same thirty-two `a` characters
followed by `b`. -/
def nameTrunc33 : String := "aaaaaaaaaaaaaaaaaaaaaaaaaaaaaaaab"

/-- Claim C2: the unified bridge derives the channel key from the name
written into a 32-byte zero-filled buffer, so the name is truncated to
32 bytes before the digest.  Two distinct names agreeing on their
first 32 bytes therefore receive the same key under every digest,
contradicting the contract that distinct names yield distinct keys
(collision-resistant digest of the full name). -/
theorem getTopicKey_truncation_collision :
    (∀ H : List Nat → String,
      Unified.getTopicKeyWith H nameTrunc32 = Unified.getTopicKeyWith H nameTrunc33) ∧
    nameTrunc32 ≠ nameTrunc33 := by
  constructor
  · intro H
    unfold Unified.getTopicKeyWith
    have h : Unified.buf32 nameTrunc32 = Unified.buf32 nameTrunc33 := by decide
    rw [h]
  · decide

/-- Observatory-variant key derivation digests the full name first, so
it inherits injectivity from the digests (supporting lemma, contrasted
with the truncating unified-bridge derivation). -/
theorem getTopicKeyObs_injective (S : String → List Nat) (H : List Nat → String)
    (hS : Function.Injective S) (hH : Function.Injective H) :
    Function.Injective (Obs.getTopicKeyObs S H) :=
  fun _ _ h => hS (hH h)

/-- Claim C3: starting from any archive within capacity, every sequence
of archive steps keeps the length at most the capacity, and the
retained records are exactly the most recent `cap` records of the full
arrival stream in arrival order. -/
theorem archive_bounded_mostRecent (cap : Nat) (init ms : List Unified.Rec)
    (h : init.length ≤ cap) :
    (ms.foldl (Unified.archiveStep cap) init).length ≤ cap ∧
    ms.foldl (Unified.archiveStep cap) init = lastN cap (init ++ ms) := by
  induction ms generalizing init with
  | nil =>
    refine ⟨by simpa using h, ?_⟩
    rw [List.foldl_nil, List.append_nil, lastN_of_le h]
  | cons m rest ih =>
    have hstep : Unified.archiveStep cap init m = lastN cap (init ++ [m]) :=
      Unified.archiveStep_lastN cap init m h
    have hlen : (Unified.archiveStep cap init m).length ≤ cap := by
      rw [hstep, lastN_length]
      exact Nat.min_le_left _ _
    obtain ⟨ihl, ihe⟩ := ih (Unified.archiveStep cap init m) hlen
    refine ⟨ihl, ?_⟩
    rw [List.foldl_cons, ihe, hstep,
      lastN_append_left cap (init ++ [m]) rest (by simp; omega)]
    simp

/-- Claim C3 (witness): capacity two, three arrivals; the archive holds
exactly the two most recent records. -/
theorem archive_bounded_mostRecent_witness :
    (([Unified.Rec.peerRec "a", Unified.Rec.peerRec "b", Unified.Rec.peerRec "c"].foldl
        (Unified.archiveStep 2) []).length ≤ 2) ∧
    [Unified.Rec.peerRec "a", Unified.Rec.peerRec "b", Unified.Rec.peerRec "c"].foldl
        (Unified.archiveStep 2) []
      = lastN 2 ([] ++ [Unified.Rec.peerRec "a", Unified.Rec.peerRec "b", Unified.Rec.peerRec "c"]) :=
  archive_bounded_mostRecent 2 []
    [Unified.Rec.peerRec "a", Unified.Rec.peerRec "b", Unified.Rec.peerRec "c"] (by decide)

/-- Claim C7 (counterexample): at zero elapsed milliseconds the
activity endpoint's rate is `Infinity` (or `NaN` when no message was
received), not `0`. -/
theorem activity_rate_zero_cex :
    Obs.messagesPerSecond 5 0 = Obs.JsNum.inf ∧
    Obs.messagesPerSecond 0 0 = Obs.JsNum.nan ∧
    Obs.JsNum.inf ≠ Obs.JsNum.finite 0 ∧
    Obs.JsNum.nan ≠ Obs.JsNum.finite 0 := by
  refine ⟨?_, ?_, by simp, by simp⟩ <;>
    norm_num [Obs.messagesPerSecond, Obs.jsDiv]

/-- Claim C7 (amended): for positive elapsed time the derived rate is
the finite value `messagesReceived * 1000 / elapsedMs` (that is,
messages per elapsed second); at zero elapsed time the code produces
`Infinity`, or `NaN` when `messagesReceived` is also zero — never the
`0` the claim requires. -/
theorem activity_rate_amended (msgs ms : Nat) :
    (0 < ms →
      Obs.messagesPerSecond msgs ms = Obs.JsNum.finite ((msgs : ℚ) * 1000 / (ms : ℚ))) ∧
    Obs.messagesPerSecond msgs 0 = (if msgs = 0 then Obs.JsNum.nan else Obs.JsNum.inf) := by
  constructor
  · intro hms
    have hmsq : (ms : ℚ) ≠ 0 := Nat.cast_ne_zero.mpr (by omega)
    have h1000 : (1000 : ℚ) ≠ 0 := by norm_num
    have hdiv : (ms : ℚ) / 1000 ≠ 0 := div_ne_zero hmsq h1000
    simp only [Obs.messagesPerSecond, Obs.jsDiv, if_neg h1000, if_neg hdiv]
    rw [div_div_eq_mul_div]
  · by_cases hz : msgs = 0 <;>
      simp [Obs.messagesPerSecond, Obs.jsDiv, hz, Nat.cast_eq_zero]

/-- Claim C7 (witness): four messages over two elapsed seconds give a
rate of two messages per second. -/
theorem activity_rate_amended_witness :
    Obs.messagesPerSecond 4 2000 = Obs.JsNum.finite ((4 : ℚ) * 1000 / (2000 : ℚ)) :=
  (activity_rate_amended 4 2000).1 (by norm_num)

namespace Unified

@[simp] theorem archiveMessageS_peers (st : State) (now : Nat) (r : Rec) :
    (archiveMessageS st now r).peers = st.peers := rfl

@[simp] theorem archiveMessageS_topics (st : State) (now : Nat) (r : Rec) :
    (archiveMessageS st now r).topics = st.topics := rfl

@[simp] theorem archiveMessageS_agents (st : State) (now : Nat) (r : Rec) :
    (archiveMessageS st now r).agents = st.agents := rfl

@[simp] theorem archiveMessageS_clients (st : State) (now : Nat) (r : Rec) :
    (archiveMessageS st now r).clients = st.clients := rfl

@[simp] theorem archiveMessageS_relayClients (st : State) (now : Nat) (r : Rec) :
    (archiveMessageS st now r).relayClients = st.relayClients := rfl

@[simp] theorem archiveMessageS_relayChannels (st : State) (now : Nat) (r : Rec) :
    (archiveMessageS st now r).relayChannels = st.relayChannels := rfl

@[simp] theorem archiveMessageS_messages (st : State) (now : Nat) (r : Rec) :
    (archiveMessageS st now r).messages = archiveStep MAX_MESSAGES st.messages r := rfl

@[simp] theorem registerAgentS_peers (st : State) (d : AgentData) (now : Nat) :
    (registerAgentS st d now).1.peers = st.peers := by
  unfold registerAgentS
  split <;> rfl

@[simp] theorem registerAgentS_messages (st : State) (d : AgentData) (now : Nat) :
    (registerAgentS st d now).1.messages = st.messages := by
  unfold registerAgentS
  split <;> rfl

@[simp] theorem registerAgentS_clients (st : State) (d : AgentData) (now : Nat) :
    (registerAgentS st d now).1.clients = st.clients := by
  unfold registerAgentS
  split <;> rfl

@[simp] theorem registerAgentS_relayClients (st : State) (d : AgentData) (now : Nat) :
    (registerAgentS st d now).1.relayClients = st.relayClients := by
  unfold registerAgentS
  split <;> rfl

@[simp] theorem registerAgentS_relayChannels (st : State) (d : AgentData) (now : Nat) :
    (registerAgentS st d now).1.relayChannels = st.relayChannels := by
  unfold registerAgentS
  split <;> rfl

@[simp] theorem registerAgentS_topics (st : State) (d : AgentData) (now : Nat) :
    (registerAgentS st d now).1.topics = st.topics := by
  unfold registerAgentS
  split <;> rfl

/-- Every effect emitted by `registerAgentS` is an `agent-discovered`
broadcast to an observatory client. -/
theorem registerAgentS_out (st : State) (d : AgentData) (now : Nat) :
    ∀ o ∈ (registerAgentS st d now).2, ∃ c a, o = Out.wsSend c (Env.agentDiscovered a) := by
  unfold registerAgentS
  split
  · intro o ho
    unfold broadcastToWebSocketClients at ho
    obtain ⟨c, _, rfl⟩ := List.mem_map.mp ho
    exact ⟨c, _, rfl⟩
  · intro o ho
    simp at ho

@[simp] theorem discoveryRegister_messages (st : State) (mm : Option MsgBody) (now : Nat) :
    (discoveryRegister st mm now).1.messages = st.messages := by
  unfold discoveryRegister
  split
  · split
    · simp
    · rfl
  · rfl

@[simp] theorem discoveryRegister_peers (st : State) (mm : Option MsgBody) (now : Nat) :
    (discoveryRegister st mm now).1.peers = st.peers := by
  unfold discoveryRegister
  split
  · split
    · simp
    · rfl
  · rfl

@[simp] theorem discoveryRegister_relayClients (st : State) (mm : Option MsgBody) (now : Nat) :
    (discoveryRegister st mm now).1.relayClients = st.relayClients := by
  unfold discoveryRegister
  split
  · split
    · simp
    · rfl
  · rfl

@[simp] theorem discoveryRegister_relayChannels (st : State) (mm : Option MsgBody) (now : Nat) :
    (discoveryRegister st mm now).1.relayChannels = st.relayChannels := by
  unfold discoveryRegister
  split
  · split
    · simp
    · rfl
  · rfl

@[simp] theorem discoveryRegister_clients (st : State) (mm : Option MsgBody) (now : Nat) :
    (discoveryRegister st mm now).1.clients = st.clients := by
  unfold discoveryRegister
  split
  · split
    · simp
    · rfl
  · rfl

/-- Every effect emitted by the discovery branch is an
`agent-discovered` broadcast. -/
theorem discoveryRegister_out (st : State) (mm : Option MsgBody) (now : Nat) :
    ∀ o ∈ (discoveryRegister st mm now).2, ∃ c a, o = Out.wsSend c (Env.agentDiscovered a) := by
  unfold discoveryRegister
  split
  · split
    · exact registerAgentS_out _ _ _
    · intro o ho; simp at ho
  · intro o ho; simp at ho

@[simp] theorem announceRegister_messages (st : State) (pid : String) (msg : PeerMsg) (now : Nat) :
    (announceRegister st pid msg now).1.messages = st.messages := by
  unfold announceRegister
  split
  · simp
  · rfl

@[simp] theorem announceRegister_clients (st : State) (pid : String) (msg : PeerMsg) (now : Nat) :
    (announceRegister st pid msg now).1.clients = st.clients := by
  unfold announceRegister
  split
  · simp
  · rfl

@[simp] theorem announceRegister_relayClients (st : State) (pid : String) (msg : PeerMsg) (now : Nat) :
    (announceRegister st pid msg now).1.relayClients = st.relayClients := by
  unfold announceRegister
  split
  · simp
  · rfl

/-- Every effect emitted by the announce branch is an
`agent-discovered` broadcast. -/
theorem announceRegister_out (st : State) (pid : String) (msg : PeerMsg) (now : Nat) :
    ∀ o ∈ (announceRegister st pid msg now).2, ∃ c a, o = Out.wsSend c (Env.agentDiscovered a) := by
  unfold announceRegister
  split
  · exact registerAgentS_out _ _ _
  · intro o ho; simp at ho

/-- The dispatcher reduces to the action switch for an authenticated
session, whatever the token configuration. -/
theorem handleRelayMessage_auth (cfg : Option String) (st : State) (sender : Nat)
    (ci : ClientInfo) (msg : RelayMsg) (now : Nat) (hauth : ci.authenticated = true) :
    handleRelayMessage cfg st sender ci msg now = handleRelayAction st sender ci msg now := by
  unfold handleRelayMessage
  cases cfg <;> simp [hauth]

/-- The client-info component returned by `relaySend` is the input
client info unchanged. -/
theorem relaySend_ci (st : State) (sender : Nat) (ci : ClientInfo) (msg : RelayMsg) (now : Nat) :
    (relaySend st sender ci msg now).2.1 = ci := by
  unfold relaySend
  by_cases h : msg.channel ∈ ci.channels <;> simp [h]

/-- No action of the switch ever clears the session's authenticated
flag. -/
theorem handleRelayAction_authenticated (st : State) (sender : Nat) (ci : ClientInfo)
    (msg : RelayMsg) (now : Nat) :
    (handleRelayAction st sender ci msg now).2.1.authenticated = ci.authenticated := by
  unfold handleRelayAction
  by_cases h1 : msg.action = some "join"
  · simp only [h1, if_true, reduceIte]
    cases strTruthy msg.agentId <;> simp
  · by_cases h2 : msg.action = some "leave"
    · simp [h1, h2]
    · by_cases h3 : msg.action = some "send" ∨ msg.action = some "publish"
      · simp [h1, h2, h3, relaySend_ci]
      · simp [h1, h2, h3]

end Unified

/-- Claim C8: `joinTopic` is idempotent — joining the same name twice
in a row returns the identical key the second time, leaves the state
(and hence the `Channel` table) exactly as it was after the first
join, and emits no effect at all, in particular no new swarm
subscription. -/
theorem joinTopic_idempotent (st : Unified.State) (n : String) (f1 f2 f3 f4 : Bool)
    (t1 t2 : Nat) :
    Unified.joinTopicS (Unified.joinTopicS st n f1 f2 t1).2.1 n f3 f4 t2
      = ((Unified.joinTopicS st n f1 f2 t1).1, (Unified.joinTopicS st n f1 f2 t1).2.1, []) := by
  unfold Unified.joinTopicS
  by_cases h : (mLookup st.topics (Unified.getTopicKey n)).isSome
  · simp [h]
  · simp [h]

/-- Claim C10: for an authenticated relay session, a `leave` on a
channel the session never joined is answered with the success `left`
envelope and is a pure no-op on the state: the session's channel set
and the `relayChannels` table are untouched (assuming, as the handlers
maintain, that the session is absent from the channel's client set and
that no stored client set is empty). -/
theorem relay_leave_never_joined (cfg : Option String) (st : Unified.State) (sender : Nat)
    (ci : Unified.ClientInfo) (ch : Option String) (mm : Option Unified.MsgBody)
    (aid tok : Option String) (now : Nat)
    (hauth : ci.authenticated = true)
    (hnj : ch ∉ ci.channels)
    (htab : ∀ s, mLookup st.relayChannels ch = some s → sender ∉ s ∧ s ≠ []) :
    Unified.handleRelayMessage cfg st sender ci
        { action := some "leave", channel := ch, message := mm, agentId := aid, token := tok } now
      = (st, ci, [Unified.Out.wsSend sender (Unified.Env.leftChannel ch)]) := by
  rw [Unified.handleRelayMessage_auth cfg st sender ci _ now hauth]
  unfold Unified.handleRelayAction
  simp only [reduceCtorEq, Option.some.injEq, String.reduceEq, if_false, or_self, ite_false,
    reduceIte]
  cases hm : mLookup st.relayChannels ch with
  | none => simp [hm, setDel_eq_self hnj]
  | some s =>
    obtain ⟨hs1, hs2⟩ := htab s hm
    have hlen : ¬(setDel s sender).length = 0 := by
      rw [setDel_eq_self hs1]
      simpa [List.length_eq_zero] using hs2
    simp [hm, hlen, setDel_eq_self hs1, setDel_eq_self hnj, mapSet_eq_self hm, hs2]

/-- An empty bridge state, used to exercise the relay handler on
concrete inputs. -/
def stEmpty : Unified.State :=
  { peers := [], topics := [], agents := [], messages := [], clients := [],
    relayClients := [], relayChannels := [], totalMessages := 0, totalAgents := 0,
    totalTopics := 0, hourlyStats := [] }

/-- A not-yet-authenticated relay session. -/
def ciUnauth : Unified.ClientInfo :=
  { id := "c1", authenticated := false, channels := [], agentId := none }

/-- An authenticated relay session joined to no channel. -/
def ciAuth : Unified.ClientInfo :=
  { id := "c1", authenticated := true, channels := [], agentId := none }

/-- Claim C10 (witness): leaving the never-joined channel `"x"` on an
empty table answers `left` and changes nothing. -/
theorem relay_leave_never_joined_witness :
    Unified.handleRelayMessage none stEmpty 1 ciAuth
        { action := some "leave", channel := some "x", message := none,
          agentId := none, token := none } 0
      = (stEmpty, ciAuth, [Unified.Out.wsSend 1 (Unified.Env.leftChannel (some "x"))]) :=
  relay_leave_never_joined none stEmpty 1 ciAuth (some "x") none none none 0 rfl
    (by decide) (by intro s hs; simp [stEmpty, mLookup] at hs)

/-- Claim C6: with a configured shared token, every command a session
sends before a message carrying the valid token is answered with an
error envelope and performs no action (the state and session are
unchanged); the first message carrying the valid token flips the
session's authenticated flag to true; no action ever clears the flag
afterwards; and with no token configured, a session is authenticated
from accept. -/
theorem relay_auth_gate (tok : String) (st : Unified.State) (sender : Nat)
    (ci : Unified.ClientInfo) (msg : Unified.RelayMsg) (now : Nat) (cid : String) :
    (ci.authenticated = false → msg.token ≠ some tok →
      Unified.handleRelayMessage (some tok) st sender ci msg now
        = (st, ci, [Unified.Out.wsSend sender (Unified.Env.error "Authentication required")])) ∧
    (ci.authenticated = false → msg.token = some tok →
      (Unified.handleRelayMessage (some tok) st sender ci msg now).2.1.authenticated = true) ∧
    (∀ cfg, ci.authenticated = true →
      (Unified.handleRelayMessage cfg st sender ci msg now).2.1.authenticated = true) ∧
    (Unified.initRelayClientInfo none cid).authenticated = true := by
  refine ⟨?_, ?_, ?_, rfl⟩
  · intro hf hne
    unfold Unified.handleRelayMessage
    simp [hf, hne]
  · intro hf he
    unfold Unified.handleRelayMessage
    simp only [hf, he, if_true, reduceIte]
    rw [Unified.handleRelayAction_authenticated]
  · intro cfg ht
    rw [Unified.handleRelayMessage_auth cfg st sender ci msg now ht,
      Unified.handleRelayAction_authenticated]
    exact ht

/-- Claim C6 (witness): with token `"secret"`, a pre-authentication
command is rejected with an error and no effect; the message carrying
the token authenticates the session; an authenticated session stays
authenticated; a session accepted with no configured token starts
authenticated. -/
theorem relay_auth_gate_witness :
    (Unified.handleRelayMessage (some "secret") stEmpty 1 ciUnauth
        { action := some "noop", channel := none, message := none, agentId := none,
          token := none } 0
      = (stEmpty, ciUnauth, [Unified.Out.wsSend 1 (Unified.Env.error "Authentication required")])) ∧
    ((Unified.handleRelayMessage (some "secret") stEmpty 1 ciUnauth
        { action := some "noop", channel := none, message := none, agentId := none,
          token := some "secret" } 0).2.1.authenticated = true) ∧
    ((Unified.handleRelayMessage none stEmpty 1 ciAuth
        { action := some "noop", channel := none, message := none, agentId := none,
          token := none } 0).2.1.authenticated = true) ∧
    (Unified.initRelayClientInfo none "c9").authenticated = true :=
  ⟨(relay_auth_gate "secret" stEmpty 1 ciUnauth _ 0 "c9").1 rfl (by decide),
   (relay_auth_gate "secret" stEmpty 1 ciUnauth _ 0 "c9").2.1 rfl rfl,
   (relay_auth_gate "secret" stEmpty 1 ciAuth _ 0 "c9").2.2.1 none rfl,
   (relay_auth_gate "secret" stEmpty 1 ciAuth
      { action := some "noop", channel := none, message := none, agentId := none,
        token := none } 0 "c9").2.2.2⟩

/-- Claim C9: when a peer's transport connection closes, the handler
removes the Peer entry (so the peer is gone from the live-peer
listing) and removes the peer from every channel member set it could
occur in, but never removes the Agent record: the agent is still
present afterwards, with only its `lastSeen` updated.  The membership
hypothesis `hsym` is the symmetry the connect handler maintains: a
topic listing the peer as member is tracked in the peer's own topic
set. -/
theorem disconnect_keeps_agent (st : Obs.State) (peerId : String) (now : Nat)
    (p : Obs.Peer) (a : Unified.Agent)
    (hp : mLookup st.peers peerId = some p)
    (ha : mLookup st.agents peerId = some a)
    (hsym : ∀ tk t, mLookup st.topics tk = some t → peerId ∈ t.peersSet → tk ∈ p.topics) :
    mLookup (Obs.onPeerClose st peerId now).1.peers peerId = none ∧
    mLookup (Obs.onPeerClose st peerId now).1.agents peerId = some { a with lastSeen := now } ∧
    ∀ tk t, mLookup (Obs.onPeerClose st peerId now).1.topics tk = some t →
      peerId ∉ t.peersSet := by
  unfold Obs.onPeerClose
  simp only [hp, ha]
  refine ⟨mLookup_mapDelete_self _ _, mLookup_mapSet_self _ _ _, ?_⟩
  intro tk t htl
  by_cases hmem : tk ∈ p.topics
  · exact foldl_update_prop (fun u => peerId ∉ u.peersSet) p.topics st.topics _ tk
      (fun u => not_mem_setDel _ _) hmem t htl
  · rw [mLookup_foldl_update_not_mem _ _ _ _ hmem] at htl
    intro hin
    exact hmem (hsym tk t htl hin)

/-- A concrete observatory state: one live peer on one topic, with a
matching agent record. -/
def stObsW : Obs.State :=
  { peers := [("p1", { publicKey := "p1", connectedAt := 1, lastSeen := 2, topics := ["t1"] })]
    topics := [("t1", { name := "alpha", key := "t1", peersSet := ["p1"], joinedAt := 1,
                        messageCount := 0, lastActivity := 2 })]
    agents := [("p1", { id := "p1", name := "Peer-p1", type := "peer", capabilities := [],
                        publicKey := "p1", topics := ["t1"], firstSeen := 1, lastSeen := 2,
                        metadata := [] })]
    clients := [] }

/-- Claim C9 (witness): disconnecting the concrete peer removes it from
the peer table and the topic member set while its agent record
survives with `lastSeen` bumped to the disconnect time. -/
theorem disconnect_keeps_agent_witness :
    mLookup (Obs.onPeerClose stObsW "p1" 7).1.peers "p1" = none ∧
    mLookup (Obs.onPeerClose stObsW "p1" 7).1.agents "p1" =
      some { id := "p1", name := "Peer-p1", type := "peer", capabilities := [],
             publicKey := "p1", topics := ["t1"], firstSeen := 1, lastSeen := 7,
             metadata := [] } ∧
    ∀ tk t, mLookup (Obs.onPeerClose stObsW "p1" 7).1.topics tk = some t →
      "p1" ∉ t.peersSet :=
  disconnect_keeps_agent stObsW "p1" 7
    { publicKey := "p1", connectedAt := 1, lastSeen := 2, topics := ["t1"] }
    { id := "p1", name := "Peer-p1", type := "peer", capabilities := [], publicKey := "p1",
      topics := ["t1"], firstSeen := 1, lastSeen := 2, metadata := [] }
    rfl rfl
    (by
      intro tk t h hin
      unfold stObsW mLookup at h
      split at h
      · next e =>
        cases h
        rw [← e]
        exact List.mem_singleton.mpr rfl
      · exact Option.noConfusion h)

namespace Unified

/-- The action switch dispatches a `send` command to the shared
send/publish body. -/
theorem handleRelayAction_send (st : State) (sender : Nat) (ci : ClientInfo) (msg : RelayMsg)
    (now : Nat) (h : msg.action = some "send") :
    handleRelayAction st sender ci msg now = relaySend st sender ci msg now := by
  unfold handleRelayAction
  simp [h]

end Unified

/-- Claim C4 (counterexample): an authenticated session joined to the
non-allow-listed channel `"private-xyz"` sends on it while a live peer
is connected.  The handler surfaces no error envelope at all (the
output list is empty, where the claim requires an error to the
originating session), does not write to the peer, and still archives
the message. -/
theorem relay_send_not_rejected_cex :
    Unified.handleRelayMessage none
        { stEmpty with
            relayChannels := [(some "private-xyz", [1])]
            peers := [("pk", { publicKey := "pk", connectedAt := 0, lastSeen := 0,
                               isClient := true, isServer := false, connDestroyed := false })] }
        1
        { id := "c1", authenticated := true, channels := [some "private-xyz"], agentId := none }
        { action := some "send", channel := some "private-xyz", message := none,
          agentId := none, token := none } 5
      = ({ stEmpty with
             relayChannels := [(some "private-xyz", [1])]
             peers := [("pk", { publicKey := "pk", connectedAt := 0, lastSeen := 0,
                                isClient := true, isServer := false, connDestroyed := false })]
             messages := [Unified.Rec.relayRec (some "private-xyz") "c1"]
             totalMessages := 1
             hourlyStats := [(0, { messages := 1, agentsSeen := [] })] },
         { id := "c1", authenticated := true, channels := [some "private-xyz"], agentId := none },
         []) ∧
    "private-xyz" ∉ Unified.PUBLIC_CHANNELS := by
  constructor
  · rfl
  · decide

/-- Claim C4 (amended): for an authenticated session, a `send` on a
channel the session has not joined is rejected with a `Not joined to
channel` error and changes nothing.  A send on a joined but
non-allow-listed channel is silently not forwarded: no write to any
peer and no error envelope either, yet the message is archived.  A
send on a joined allow-listed channel is written to every currently
connected non-destroyed peer and archived (once as the cross-protocol
copy, once as the relay record). -/
theorem relay_send_policy (cfg : Option String) (st : Unified.State) (sender : Nat)
    (ci : Unified.ClientInfo) (ch : String) (mm : Option Unified.MsgBody)
    (aid tok : Option String) (now : Nat)
    (hauth : ci.authenticated = true) :
    (some ch ∉ ci.channels →
      Unified.handleRelayMessage cfg st sender ci
          { action := some "send", channel := some ch, message := mm, agentId := aid,
            token := tok } now
        = (st, ci, [Unified.Out.wsSend sender (Unified.Env.error "Not joined to channel")])) ∧
    (some ch ∈ ci.channels → ch ∉ Unified.PUBLIC_CHANNELS →
      (∀ pid env, Unified.Out.peerWrite pid env ∉
        (Unified.handleRelayMessage cfg st sender ci
          { action := some "send", channel := some ch, message := mm, agentId := aid,
            token := tok } now).2.2) ∧
      (∀ e, Unified.Out.wsSend sender (Unified.Env.error e) ∉
        (Unified.handleRelayMessage cfg st sender ci
          { action := some "send", channel := some ch, message := mm, agentId := aid,
            token := tok } now).2.2) ∧
      (Unified.handleRelayMessage cfg st sender ci
          { action := some "send", channel := some ch, message := mm, agentId := aid,
            token := tok } now).1.messages
        = Unified.archiveStep Unified.MAX_MESSAGES st.messages
            (Unified.Rec.relayRec (some ch) (jsOrStr ci.agentId ci.id))) ∧
    (some ch ∈ ci.channels → ch ∈ Unified.PUBLIC_CHANNELS →
      (∀ pid p, (pid, p) ∈ st.peers → p.connDestroyed = false →
        Unified.Out.peerWrite pid
            (Unified.Env.hyperswarmMsg (some ch) (jsOrStr ci.agentId "relay"))
          ∈ (Unified.handleRelayMessage cfg st sender ci
              { action := some "send", channel := some ch, message := mm, agentId := aid,
                token := tok } now).2.2) ∧
      (Unified.handleRelayMessage cfg st sender ci
          { action := some "send", channel := some ch, message := mm, agentId := aid,
            token := tok } now).1.messages
        = Unified.archiveStep Unified.MAX_MESSAGES
            (Unified.archiveStep Unified.MAX_MESSAGES st.messages
              (Unified.Rec.hyperswarmRec (some ch) (jsOrStr ci.agentId "relay")))
            (Unified.Rec.relayRec (some ch) (jsOrStr ci.agentId ci.id))) := by
  rw [Unified.handleRelayMessage_auth cfg st sender ci _ now hauth,
    Unified.handleRelayAction_send st sender ci _ now rfl]
  refine ⟨?_, ?_, ?_⟩
  · intro hnj
    unfold Unified.relaySend
    simp [hnj]
  · intro hj hnp
    have hnpb : Unified.isPublic (some ch) = false := by
      simp [Unified.isPublic, hnp]
    unfold Unified.relaySend
    simp only [hj, if_true, reduceIte]
    have hp2 : Unified.relayToHyperswarm (Unified.discoveryRegister st mm now).1 (some ch)
        ci.agentId now = ((Unified.discoveryRegister st mm now).1, []) := by
      unfold Unified.relayToHyperswarm
      rw [hnpb]
      simp
    refine ⟨?_, ?_, ?_⟩
    · intro pid env hmem
      simp only [hp2, List.append_nil] at hmem
      rcases List.mem_append.mp hmem with h1 | h2
      · obtain ⟨c2, a2, heq⟩ := Unified.discoveryRegister_out st mm now _ h1
        simp at heq
      · obtain ⟨c2, hc2, heq⟩ := List.mem_map.mp h2
        simp at heq
    · intro e hmem
      simp only [hp2, List.append_nil] at hmem
      rcases List.mem_append.mp hmem with h1 | h2
      · obtain ⟨c2, a2, heq⟩ := Unified.discoveryRegister_out st mm now _ h1
        simp at heq
      · obtain ⟨c2, hc2, heq⟩ := List.mem_map.mp h2
        simp at heq
    · simp [hp2]
  · intro hj hpub
    have hpubb : Unified.isPublic (some ch) = true := by
      simp [Unified.isPublic, hpub]
    unfold Unified.relaySend
    simp only [hj, if_true, reduceIte]
    have hp2 : Unified.relayToHyperswarm (Unified.discoveryRegister st mm now).1 (some ch)
        ci.agentId now
        = (Unified.archiveMessageS (Unified.discoveryRegister st mm now).1 now
            (Unified.Rec.hyperswarmRec (some ch) (jsOrStr ci.agentId "relay")),
           ((Unified.discoveryRegister st mm now).1.peers.filter
              (fun kv => !kv.2.connDestroyed)).map
             (fun kv => Unified.Out.peerWrite kv.1
               (Unified.Env.hyperswarmMsg (some ch) (jsOrStr ci.agentId "relay")))) := by
      unfold Unified.relayToHyperswarm
      rw [hpubb]
      simp
    refine ⟨?_, ?_⟩
    · intro pid p hp hd
      simp only [hp2]
      refine List.mem_append.mpr (Or.inr ?_)
      refine List.mem_map.mpr ⟨(pid, p), List.mem_filter.mpr ⟨?_, by simp [hd]⟩, rfl⟩
      simpa using hp
    · simp [hp2]

/-- Claim C4 (witness): a concrete state with one live peer and a
session joined to both a private and a public channel, exercising all
three branches of the amended statement. -/
theorem relay_send_policy_witness :
    (some "nope" ∉ ([some "private-xyz", some "agent-marketplace"] : List (Option String)) ∧
      Unified.handleRelayMessage none
          { stEmpty with
              relayChannels := [(some "private-xyz", [1]), (some "agent-marketplace", [1])]
              peers := [("pk", { publicKey := "pk", connectedAt := 0, lastSeen := 0,
                                 isClient := true, isServer := false, connDestroyed := false })] }
          1
          { id := "c1", authenticated := true,
            channels := [some "private-xyz", some "agent-marketplace"], agentId := none }
          { action := some "send", channel := some "nope", message := none,
            agentId := none, token := none } 5
        = ({ stEmpty with
               relayChannels := [(some "private-xyz", [1]), (some "agent-marketplace", [1])]
               peers := [("pk", { publicKey := "pk", connectedAt := 0, lastSeen := 0,
                                  isClient := true, isServer := false, connDestroyed := false })] },
           { id := "c1", authenticated := true,
             channels := [some "private-xyz", some "agent-marketplace"], agentId := none },
           [Unified.Out.wsSend 1 (Unified.Env.error "Not joined to channel")])) ∧
    ("agent-marketplace" ∈ Unified.PUBLIC_CHANNELS ∧
      Unified.Out.peerWrite "pk"
          (Unified.Env.hyperswarmMsg (some "agent-marketplace") "relay")
        ∈ (Unified.handleRelayMessage none
            { stEmpty with
                relayChannels := [(some "private-xyz", [1]), (some "agent-marketplace", [1])]
                peers := [("pk", { publicKey := "pk", connectedAt := 0, lastSeen := 0,
                                   isClient := true, isServer := false, connDestroyed := false })] }
            1
            { id := "c1", authenticated := true,
              channels := [some "private-xyz", some "agent-marketplace"], agentId := none }
            { action := some "send", channel := some "agent-marketplace", message := none,
              agentId := none, token := none } 5).2.2) := by
  constructor
  · constructor
    · decide
    · exact (relay_send_policy none _ 1 _ "nope" none none none 5 rfl).1 (by decide)
  · constructor
    · decide
    · exact ((relay_send_policy none _ 1 _ "agent-marketplace" none none none 5 rfl).2.2
        (by decide) (by decide)).1 "pk"
        { publicKey := "pk", connectedAt := 0, lastSeen := 0, isClient := true,
          isServer := false, connDestroyed := false } (by decide) rfl

/-- A relay session joined to the hard-coded relay channel
`0000intercom`. -/
def ciIntercom : Unified.ClientInfo :=
  { id := "r1", authenticated := true, channels := [some "0000intercom"], agentId := none }

/-- A relay session joined only to `agent-marketplace`. -/
def ciMarket : Unified.ClientInfo :=
  { id := "r2", authenticated := true, channels := [some "agent-marketplace"], agentId := none }

/-- Claim C5 (counterexample): a message arriving from a peer on the
non-allow-listed channel `"private-xyz"` is nevertheless delivered to
the relay session joined to `0000intercom` (so a relay session does
receive it), while a message on the allow-listed `"agent-marketplace"`
produces no sidechannel delivery to the session joined to exactly that
name — the inbound handler relays everything under the hard-coded
`0000intercom` and ignores the originating channel entirely. -/
theorem inbound_relay_isolation_cex :
    "private-xyz" ∉ Unified.PUBLIC_CHANNELS ∧
    Unified.Out.wsSend 1 (Unified.Env.sidechannel (some "0000intercom") "pk")
      ∈ (Unified.onPeerData { stEmpty with relayClients := [(1, ciIntercom)] } "pk"
          { type := none, payload := none, channel := some "private-xyz" } 5).2 ∧
    "agent-marketplace" ∈ Unified.PUBLIC_CHANNELS ∧
    ((Unified.onPeerData { stEmpty with relayClients := [(2, ciMarket)] } "pk"
          { type := none, payload := none, channel := some "agent-marketplace" } 5).2.filter
        (fun o => match o with
                  | Unified.Out.wsSend _ (Unified.Env.sidechannel _ _) => true
                  | _ => false)) = [] := by
  refine ⟨by decide, by decide, by decide, by decide⟩

/-- Claim C5 (amended): the cross-protocol relay of an inbound peer
message never consults the message's channel: a relay session receives
a sidechannel delivery exactly when it is joined to the hard-coded
name `0000intercom`, every such delivery is tagged `0000intercom` with
the peer as sender, and `relayToWebSocketRelay` itself delivers
nothing for a non-allow-listed topic name. -/
theorem inbound_relay_hardcoded (st : Unified.State) (pid : String) (msg : Unified.PeerMsg)
    (now : Nat) :
    (∀ c ci, (c, ci) ∈ st.relayClients → some "0000intercom" ∈ ci.channels →
      Unified.Out.wsSend c (Unified.Env.sidechannel (some "0000intercom") pid)
        ∈ (Unified.onPeerData st pid msg now).2) ∧
    (∀ c ch s, Unified.Out.wsSend c (Unified.Env.sidechannel ch s)
        ∈ (Unified.onPeerData st pid msg now).2 →
      ch = some "0000intercom" ∧ s = pid ∧
      ∃ ci, (c, ci) ∈ st.relayClients ∧ some "0000intercom" ∈ ci.channels) ∧
    (∀ (st2 : Unified.State) (name srcKey : String),
      name ∉ Unified.PUBLIC_CHANNELS → Unified.relayToWebSocketRelay st2 name srcKey = []) := by
  have hpub : "0000intercom" ∈ Unified.PUBLIC_CHANNELS := by decide
  refine ⟨?_, ?_, ?_⟩
  · intro c ci hm hch
    unfold Unified.onPeerData Unified.relayToWebSocketRelay Unified.broadcastToRelayClients
    simp only [hpub, if_true, reduceIte, Unified.archiveMessageS_relayClients,
      Unified.announceRegister_relayClients]
    refine List.mem_append.mpr (Or.inr ?_)
    refine List.mem_map.mpr ⟨(c, ci), List.mem_filter.mpr ⟨?_, by simp [hch]⟩, rfl⟩
    simpa using hm
  · intro c ch s hmem
    unfold Unified.onPeerData Unified.relayToWebSocketRelay at hmem
    simp only [hpub, if_true, reduceIte, Unified.archiveMessageS_relayClients,
      Unified.announceRegister_relayClients] at hmem
    rcases List.mem_append.mp hmem with h12 | h3
    · rcases List.mem_append.mp h12 with h1 | h2
      · obtain ⟨c2, a2, heq⟩ := Unified.announceRegister_out _ _ _ _ _ h1
        simp at heq
      · unfold Unified.broadcastToWebSocketClients at h2
        obtain ⟨c2, hc2, heq⟩ := List.mem_map.mp h2
        simp at heq
    · unfold Unified.broadcastToRelayClients at h3
      obtain ⟨⟨c2, ci2⟩, hfil, heq⟩ := List.mem_map.mp h3
      obtain ⟨hm2, hcond⟩ := List.mem_filter.mp hfil
      simp only [Unified.Out.wsSend.injEq, Unified.Env.sidechannel.injEq] at heq
      obtain ⟨rfl, rfl, rfl⟩ := heq
      refine ⟨rfl, rfl, ci2, ?_, ?_⟩
      · simpa using hm2
      · simpa using hcond
  · intro st2 name srcKey hn
    unfold Unified.relayToWebSocketRelay
    rw [if_neg hn]

/-- Claim C5 (witness): the session joined to `0000intercom` receives
the concrete inbound message. -/
theorem inbound_relay_hardcoded_witness :
    Unified.Out.wsSend 1 (Unified.Env.sidechannel (some "0000intercom") "pk")
      ∈ (Unified.onPeerData { stEmpty with relayClients := [(1, ciIntercom)] } "pk"
          { type := none, payload := none, channel := some "private-xyz" } 6).2 :=
  (inbound_relay_hardcoded { stEmpty with relayClients := [(1, ciIntercom)] } "pk"
      { type := none, payload := none, channel := some "private-xyz" } 6).1
    1 ciIntercom (by decide) (by decide)
